import Mathlib

/-!
# Verification of the rPPG Pro signal-processing core

Shallow embedding of the signal-processing and derived-metrics pipeline of the
rPPG Pro repository (`signal.js` and the analysis module), together with
theorems settling the specification claims about it.

Modelling conventions:
* JavaScript numbers are modelled as real numbers (`ℝ`); decimal literals are
  taken at their exact rational value.  The isolated outlier filter
  `rejectOutliersIQR`, which only sorts, indexes and compares its inputs, is
  modelled over `ℚ` so that it stays executable.
* JavaScript `Float64Array`s are modelled as functions `ℕ → ℝ` (fresh arrays
  are zero-initialised, matching `new Float64Array(n)`); writes are
  `Function.update`.
* `for` loops are `List.foldl` over the list of loop indices; `while` loops
  with a strictly decreasing counter are structural recursions on a fuel
  argument that is always sufficient for the loop's real iterations.
* A JavaScript division whose divisor is zero produces `Infinity`/`NaN`, which
  every use-site in this code immediately collapses back to `0`
  (`isFinite(delta) ? delta : 0`, explicit `denom !== 0` guards); Lean's
  convention `x / 0 = 0` therefore models those sites exactly.
* Functions that `return null` on insufficient data are modelled with
  `Option`.
-/

/-- `rejectOutliersIQR` from `src/signal.js`: IQR-based outlier rejection for
HR values.  `values.slice().sort((a,b) => a-b)` is an ascending sort;
`Math.floor(len * 0.25)` and `Math.floor(len * 0.75)` are `len / 4` and
`3 * len / 4` in natural-number division. -/
def rejectOutliersIQR (values : List ℚ) : List ℚ :=
  if values.length < 4 then values
  else
    let sorted := values.insertionSort (· ≤ ·)
    let q1 := sorted.getD (sorted.length / 4) 0
    let q3 := sorted.getD (sorted.length * 3 / 4) 0
    let iqr := q3 - q1
    let lower := q1 - 1.5 * iqr
    let upper := q3 + 1.5 * iqr
    values.filter (fun v => lower ≤ v ∧ v ≤ upper)

/-- `nextPow2`'s `while (p < n) p <<= 1` loop, with fuel.  Starting from
`p = 1`, at most `n` doublings are ever needed, so the fuel never runs out on
the calls the program makes. -/
def nextPow2Go : ℕ → ℕ → ℕ → ℕ
  | 0, p, _ => p
  | fuel + 1, p, n => if p < n then nextPow2Go fuel (p <<< 1) n else p

/-- `nextPow2` from `src/signal.js`: smallest power of two `≥ n` (reached by
doubling from 1). -/
def nextPow2 (n : ℕ) : ℕ := nextPow2Go n 1 n

/-- The bit-reversal inner `while (j & bit) { j ^= bit; bit >>= 1 }` loop of
`fft`, with fuel; `bit + 1` units of fuel always suffice because `bit`
strictly decreases. -/
def brWhileGo : ℕ → ℕ → ℕ → ℕ × ℕ
  | 0, j, bit => (j, bit)
  | fuel + 1, j, bit =>
    if j &&& bit ≠ 0 then brWhileGo fuel (j ^^^ bit) (bit >>> 1) else (j, bit)

/-- The state of `j` and `bit` after the bit-reversal `while` loop. -/
def brWhile (j bit : ℕ) : ℕ × ℕ := brWhileGo (bit + 1) j bit

/-- One step of the bit-reversal index bookkeeping of `fft`:
`bit = n >> 1; while (j & bit) { j ^= bit; bit >>= 1 }; j ^= bit`. -/
def brNext (n j : ℕ) : ℕ :=
  let p := brWhile j (n >>> 1)
  p.1 ^^^ p.2

/-- The integer range `[lo, hi]` of a `for (i = lo; i <= hi; i++)` loop. -/
def intRange (lo hi : ℤ) : List ℤ :=
  (List.range ((hi + 1 - lo).toNat)).map (fun k => lo + k)

/-- The list of butterfly stage lengths of `fft`:
`for (len = 2; len <= n; len <<= 1)`, with fuel (`n` units always suffice). -/
def stageLens : ℕ → ℕ → ℕ → List ℕ
  | 0, _, _ => []
  | fuel + 1, len, n => if len ≤ n then len :: stageLens fuel (len <<< 1) n else []

section SignalDefs

/-- Hann window coefficient `0.5 * (1 - cos(2π·i/(L-1)))` used by every
windowed transform in `src/signal.js` and the analysis module. -/
noncomputable def hannW (L i : ℕ) : ℝ :=
  0.5 * (1 - Real.cos (2 * Real.pi * i / ((L - 1 : ℕ) : ℝ)))

/-- The zero-initialised `re` array after the windowing loop
`for (i = 0; i < segLen && offset + i < signal.length; i++)
  re[i] = signal[offset + i] * w`.
The single-window transforms are the `offset = 0`, `segLen = signal.length`
instance of this. -/
noncomputable def segRe (signal : List ℝ) (offset segLen : ℕ) : ℕ → ℝ :=
  fun i =>
    if i < segLen ∧ offset + i < signal.length then
      signal.getD (offset + i) 0 * hannW segLen i
    else 0

/-- The bit-reversal permutation pass of `fft` (the first loop, carrying `j`
across iterations of `i` and swapping `re`/`im` entries when `i < j`). -/
noncomputable def bitrevPass (n : ℕ) (re im : ℕ → ℝ) : (ℕ → ℝ) × (ℕ → ℝ) :=
  let fin := (List.range' 1 (n - 1)).foldl
    (fun (st : ℕ × (ℕ → ℝ) × (ℕ → ℝ)) (i : ℕ) =>
      let j := brNext n st.1
      let re := st.2.1
      let im := st.2.2
      if i < j then
        (j, Function.update (Function.update re i (re j)) j (re i),
            Function.update (Function.update im i (im j)) j (im i))
      else (j, re, im))
    (0, re, im)
  (fin.2.1, fin.2.2)

/-- The innermost butterfly loop of `fft` for one block starting at `i` with
half-length `half = len / 2`, accumulating the twiddle factor `cur` by
repeated multiplication with `(wRe, wIm)`. -/
noncomputable def butterflyInner (wRe wIm : ℝ) (i half : ℕ) (re im : ℕ → ℝ) :
    (ℕ → ℝ) × (ℕ → ℝ) :=
  let fin := (List.range half).foldl
    (fun (st : ℝ × ℝ × (ℕ → ℝ) × (ℕ → ℝ)) (j : ℕ) =>
      let curRe := st.1
      let curIm := st.2.1
      let re := st.2.2.1
      let im := st.2.2.2
      let tRe := curRe * re (i + j + half) - curIm * im (i + j + half)
      let tIm := curRe * im (i + j + half) + curIm * re (i + j + half)
      let re' := Function.update (Function.update re (i + j + half) (re (i + j) - tRe))
        (i + j) (re (i + j) + tRe)
      let im' := Function.update (Function.update im (i + j + half) (im (i + j) - tIm))
        (i + j) (im (i + j) + tIm)
      (curRe * wRe - curIm * wIm, curRe * wIm + curIm * wRe, re', im'))
    (1, 0, re, im)
  (fin.2.2.1, fin.2.2.2)

/-- One butterfly stage of `fft` for block length `len`:
`ang = -2π/len`, blocks at `i = 0, len, 2·len, … < n` (for the lengths the
program produces, `n` is always a multiple of `len`). -/
noncomputable def stagePass (n len : ℕ) (st : (ℕ → ℝ) × (ℕ → ℝ)) :
    (ℕ → ℝ) × (ℕ → ℝ) :=
  let wRe := Real.cos (-(2 * Real.pi) / (len : ℝ))
  let wIm := Real.sin (-(2 * Real.pi) / (len : ℝ))
  ((List.range (n / len)).map (· * len)).foldl
    (fun st i => butterflyInner wRe wIm i (len / 2) st.1 st.2) st

/-- `fft` from `src/signal.js`: iterative in-place radix-2 Cooley–Tukey FFT —
bit-reversal permutation followed by butterfly stages of doubling length. -/
noncomputable def fft (re im : ℕ → ℝ) (n : ℕ) : (ℕ → ℝ) × (ℕ → ℝ) :=
  (stageLens n 2 n).foldl (fun st len => stagePass n len st) (bitrevPass n re im)

/-- Proof-side view of a finite list as an array-function (entries beyond the
end are `0`, like the all-zero tail of a `Float64Array`); used to evaluate
the `fft` state concretely. -/
def vecFn (L : List ℝ) : ℕ → ℝ := fun m => L.getD m 0

end SignalDefs

section EstimatorDefs

/-- The windowed spectrum computed at the start of `fftHeartRate` (and, with
the same window and padding, by the single-segment case of Welch's method):
`n = nextPow2(signal.length)`, Hann-window the original samples, zero-pad,
run `fft`. -/
noncomputable def fftSpectrum (signal : List ℝ) : (ℕ → ℝ) × (ℕ → ℝ) :=
  fft (segRe signal 0 signal.length) (fun _ => 0) (nextPow2 signal.length)

/-- Squared magnitude `re[i]*re[i] + im[i]*im[i]` of the `fftHeartRate`
spectrum at bin `i` (bins are non-negative at every use site). -/
noncomputable def fftMagSq (signal : List ℝ) (i : ℤ) : ℝ :=
  (fftSpectrum signal).1 i.toNat * (fftSpectrum signal).1 i.toNat +
    (fftSpectrum signal).2 i.toNat * (fftSpectrum signal).2 i.toNat

/-- The max-magnitude scan `for (i = lo; i <= hi; i++) if (mag > maxMag) …`
shared by all spectral peak searches; returns `(maxMag, peakBin)` with
`maxMag` initialised to `0` and `peakBin` to `init`. -/
noncomputable def peakScan (mag : ℤ → ℝ) (init lo hi : ℤ) : ℝ × ℤ :=
  (intRange lo hi).foldl (fun st i => if mag i > st.1 then (mag i, i) else st) (0, init)

/-- `minBin = Math.floor(0.67 * n / fps)` of `fftHeartRate`. -/
noncomputable def fftMinBin (signal : List ℝ) (fps : ℝ) : ℤ :=
  ⌊0.67 * (nextPow2 signal.length : ℝ) / fps⌋

/-- `maxBin = Math.ceil(3.33 * n / fps)` of `fftHeartRate`. -/
noncomputable def fftMaxBin (signal : List ℝ) (fps : ℝ) : ℤ :=
  ⌈3.33 * (nextPow2 signal.length : ℝ) / fps⌉

/-- The peak bin found by `fftHeartRate`'s scan over
`[minBin, min(maxBin, n/2)]`. -/
noncomputable def fftPeakBin (signal : List ℝ) (fps : ℝ) : ℤ :=
  (peakScan (fftMagSq signal) (fftMinBin signal fps) (fftMinBin signal fps)
    (min (fftMaxBin signal fps) ((nextPow2 signal.length : ℤ) / 2))).2

/-- The sub-bin offset `fftHeartRate` adds to the peak bin: the parabolic
interpolation `δ = (a-c) / (2(a-2b+c))` when `0 < k < n/2`, and `0`
otherwise.  (`isFinite(delta) ? delta : 0` coincides with Lean's `x / 0 = 0`.) -/
noncomputable def fftDelta (signal : List ℝ) (fps : ℝ) : ℝ :=
  let k := fftPeakBin signal fps
  if 0 < k ∧ k < (nextPow2 signal.length : ℤ) / 2 then
    let a := fftMagSq signal (k - 1)
    let b := fftMagSq signal k
    let c := fftMagSq signal (k + 1)
    (a - c) / (2 * (a - 2 * b + c))
  else 0

/-- `fftHeartRate` from `src/signal.js`.  Both return paths of the source are
`(refinedBin * fps / n) * 60` with `refinedBin = peakBin + δ` where `δ` is as
in `fftDelta` (the unrefined path has `δ = 0`). -/
noncomputable def fftHeartRate (signal : List ℝ) (fps : ℝ) : ℝ :=
  ((fftPeakBin signal fps + fftDelta signal fps) * fps /
    (nextPow2 signal.length : ℝ)) * 60

/-- `segLen = Math.min(nextPow2(signal.length), signal.length)` of
`welchFFTHeartRate`. -/
def welchSegLen (signal : List ℝ) : ℕ := min (nextPow2 signal.length) signal.length

/-- `step = segLen - overlap` with `overlap = Math.floor(segLen * 0.75)`. -/
def welchStep (signal : List ℝ) : ℕ :=
  welchSegLen signal - welchSegLen signal * 3 / 4

/-- `nSegs = Math.floor((signal.length - segLen) / step) + 1` (the operands
are non-negative naturals on every reachable input, since `segLen ≤ len`). -/
def welchNSegs (signal : List ℝ) : ℕ :=
  (signal.length - welchSegLen signal) / welchStep signal + 1

/-- `n = nextPow2(segLen)` of `welchFFTHeartRate`. -/
def welchN (signal : List ℝ) : ℕ := nextPow2 (welchSegLen signal)

/-- The accumulated `avgSpectrum` of `welchFFTHeartRate`: each segment is
Hann-windowed (denominator `segLen - 1`), transformed, and its power spectrum
added in as `(re[i]² + im[i]²) / nSegs`. -/
noncomputable def welchAvgSpec (signal : List ℝ) : ℕ → ℝ :=
  fun i =>
    ((List.range (welchNSegs signal)).map (fun s =>
      let sp := fft (segRe signal (s * welchStep signal) (welchSegLen signal))
        (fun _ => 0) (welchN signal)
      (sp.1 i * sp.1 i + sp.2 i * sp.2 i) / (welchNSegs signal : ℝ))).sum

/-- `welchAvgSpec` read at an integer bin (non-negative at every use site). -/
noncomputable def welchMag (signal : List ℝ) (i : ℤ) : ℝ :=
  welchAvgSpec signal i.toNat

/-- `minBin = Math.max(1, Math.floor(0.7 * n / fps))` of `welchFFTHeartRate`. -/
noncomputable def welchMinBin (signal : List ℝ) (fps : ℝ) : ℤ :=
  max 1 ⌊0.7 * (welchN signal : ℝ) / fps⌋

/-- `maxBin = Math.min(Math.ceil(3.33 * n / fps), n / 2)` of
`welchFFTHeartRate`. -/
noncomputable def welchMaxBin (signal : List ℝ) (fps : ℝ) : ℤ :=
  min ⌈3.33 * (welchN signal : ℝ) / fps⌉ ((welchN signal : ℤ) / 2)

/-- The peak bin of `welchFFTHeartRate`'s scan over `[minBin, maxBin]`. -/
noncomputable def welchPeakBin (signal : List ℝ) (fps : ℝ) : ℤ :=
  (peakScan (welchMag signal) (welchMinBin signal fps) (welchMinBin signal fps)
    (welchMaxBin signal fps)).2

/-- The sub-bin offset `welchFFTHeartRate` adds to the peak bin: the guarded
parabolic interpolation — applied only when the peak is strictly interior to
the scanned range, `denom ≠ 0`, and `|δ| < 1` — and `0` on every other path
(which all report the raw peak bin). -/
noncomputable def welchDelta (signal : List ℝ) (fps : ℝ) : ℝ :=
  let k := welchPeakBin signal fps
  if welchMinBin signal fps < k ∧ k < welchMaxBin signal fps then
    let a := welchMag signal (k - 1)
    let b := welchMag signal k
    let c := welchMag signal (k + 1)
    let denom := 2 * (a - 2 * b + c)
    if denom ≠ 0 then
      let delta := (a - c) / denom
      if |delta| < 1 then delta else 0
    else 0
  else 0

/-- The value `welchFFTHeartRate` computes when at least one full segment
fits: `((peakBin + δ) * fps / n) * 60` (all of the source's return paths have
this form, with `δ = 0` on the unrefined ones). -/
noncomputable def welchBody (signal : List ℝ) (fps : ℝ) : ℝ :=
  ((welchPeakBin signal fps + welchDelta signal fps) * fps /
    (welchN signal : ℝ)) * 60

/-- `welchFFTHeartRate` from `src/signal.js`: falls back to `fftHeartRate`
when fewer than one full segment fits, else runs Welch's method. -/
noncomputable def welchFFTHeartRate (signal : List ℝ) (fps : ℝ) : ℝ :=
  if welchNSegs signal < 1 then fftHeartRate signal fps else welchBody signal fps

end EstimatorDefs

section QualityDefs

/-- `arrayStd` from `src/signal.js`: population standard deviation. -/
noncomputable def arrayStd (arr : List ℝ) : ℝ :=
  let m := arr.sum / (arr.length : ℝ)
  Real.sqrt ((arr.map (fun v => (v - m) ^ 2)).sum / (arr.length : ℝ))

/-- The quality record returned by `assessSignalQuality`:
`{score, usable, snr}`. -/
structure QualityScore where
  score : ℝ
  usable : Prop
  snr : ℝ

/-- `assessSignalQuality` from `src/signal.js`: SNR, peak-to-average ratio and
stationarity combined into an integer score 0–99. -/
noncomputable def assessSignalQuality (signal : List ℝ) (fps : ℝ) : QualityScore :=
  if signal.length < 60 then ⟨0, False, 0⟩
  else
    let n := nextPow2 signal.length
    let sp := fftSpectrum signal
    let hrMin : ℤ := max 1 ⌊0.7 * (n : ℝ) / fps⌋
    let hrMax : ℤ := min ⌈3.33 * (n : ℝ) / fps⌉ ((n : ℤ) / 2)
    -- `for (i = 1; i <= n/2; i++)` accumulating (signalPower, totalPower, peakPower)
    let pows := (intRange 1 ((n : ℤ) / 2)).foldl
      (fun (st : ℝ × ℝ × ℝ) i =>
        let p := sp.1 i.toNat * sp.1 i.toNat + sp.2 i.toNat * sp.2 i.toNat
        ((if hrMin ≤ i ∧ i ≤ hrMax then st.1 + p else st.1),
         st.2.1 + p,
         (if hrMin ≤ i ∧ i ≤ hrMax ∧ p > st.2.2 then p else st.2.2)))
      (0, 0, 0)
    let signalPower := pows.1
    let totalPower := pows.2.1
    let peakPower := pows.2.2
    let noisePower := totalPower - signalPower
    let snr := if noisePower > 0 then 10 * Real.logb 10 (signalPower / noisePower) else 0
    let avgHRPower := signalPower / ((hrMax - hrMin + 1 : ℤ) : ℝ)
    let par := if avgHRPower > 0 then peakPower / avgHRPower else 0
    let score0 : ℝ := 0
    let score1 := if snr > 0 then score0 + min 40 (snr * 8) else score0
    let score2 := if par > 2 then score1 + min 35 ((par - 2) * 7) else score1
    let half := signal.length / 2
    let std1 := arrayStd (signal.take half)
    let std2 := arrayStd (signal.drop half)
    let stationarity := if std1 > 0 then min std1 std2 / max std1 std2 else 0
    let score3 := score2 + stationarity * 25
    let score : ℝ := ((min 99 (max 0 (round score3)) : ℤ) : ℝ)
    ⟨score, score > 25, ((round (snr * 10) : ℤ) : ℝ) / 10⟩

end QualityDefs

section ExtractorDefs

/-- Sum `for (j = start; j < stop; j++) acc += l[j]` over a list. -/
noncomputable def windowSum (l : List ℝ) (start stop : ℕ) : ℝ :=
  ((List.range (stop - start)).map (fun k => l.getD (start + k) 0)).sum

/-- `localStd` from `src/signal.js`: windowed standard deviation around
`center` (window clamped to the array, `sqrt(max(0, E[x²] - E[x]²))`). -/
noncomputable def localStd (signal : List ℝ) (center winSize : ℕ) : ℝ :=
  let start := center - winSize
  let stop := min signal.length (center + winSize)
  let cnt : ℝ := ((stop - start : ℕ) : ℝ)
  let sum := windowSum signal start stop
  let sq := ((List.range (stop - start)).map
    (fun k => signal.getD (start + k) 0 * signal.getD (start + k) 0)).sum
  let mean := sum / cnt
  Real.sqrt (max 0 (sq / cnt - mean * mean))

/-- `chromAlgorithm` from `src/signal.js` (CHROM rPPG projection); falls back
to a copy of the green channel below 30 samples. -/
noncomputable def chromAlgorithm (rSignal gSignal bSignal : List ℝ) : List ℝ :=
  let n := rSignal.length
  if n < 30 then gSignal
  else
    let winSize := min 45 (n / 2)
    (List.range n).map (fun i =>
      let start := i - winSize
      let stop := min n (i + winSize)
      let cnt : ℝ := ((stop - start : ℕ) : ℝ)
      let mR := windowSum rSignal start stop / cnt
      let mG := windowSum gSignal start stop / cnt
      let mB := windowSum bSignal start stop / cnt
      let rn := if mR > 0 then rSignal.getD i 0 / mR else 0
      let gn := if mG > 0 then gSignal.getD i 0 / mG else 0
      let bn := if mB > 0 then bSignal.getD i 0 / mB else 0
      let x := 3 * rn - 2 * gn
      let y := 1.5 * rn + gn - 1.5 * bn
      let stdX := localStd rSignal i winSize
      let stdY := localStd gSignal i winSize
      let alpha := if stdY > 0 then stdX / stdY else 1
      x - alpha * y)

/-- `posAlgorithm` from `src/signal.js` (POS rPPG projection,
`winLen = Math.round(fps * 1.6)`, half-window `Math.floor(winLen / 2)`);
same sub-30-sample fallback as CHROM. -/
noncomputable def posAlgorithm (rSignal gSignal bSignal : List ℝ) (fps : ℝ) : List ℝ :=
  let n := rSignal.length
  if n < 30 then gSignal
  else
    let halfWin := (round (fps * 1.6)).toNat / 2
    (List.range n).map (fun i =>
      let start := i - halfWin
      let stop := min n (i + halfWin)
      let cnt : ℝ := ((stop - start : ℕ) : ℝ)
      let mR := windowSum rSignal start stop / cnt
      let mG := windowSum gSignal start stop / cnt
      let mB := windowSum bSignal start stop / cnt
      if mR = 0 ∨ mG = 0 ∨ mB = 0 then 0
      else
        let rn := rSignal.getD i 0 / mR
        let gn := gSignal.getD i 0 / mG
        let bn := bSignal.getD i 0 / mB
        let S1 := gn - bn
        let S2 := gn + bn - 2 * rn
        let s1At := fun j => gSignal.getD j 0 / mG - bSignal.getD j 0 / mB
        let s2At := fun j =>
          gSignal.getD j 0 / mG + bSignal.getD j 0 / mB - 2 * (rSignal.getD j 0 / mR)
        let sumS1 := ((List.range (stop - start)).map (fun k => s1At (start + k))).sum
        let sumS2 := ((List.range (stop - start)).map (fun k => s2At (start + k))).sum
        let sqS1 := ((List.range (stop - start)).map (fun k => s1At (start + k) ^ 2)).sum
        let sqS2 := ((List.range (stop - start)).map (fun k => s2At (start + k) ^ 2)).sum
        let stdS1 := Real.sqrt (max 0 (sqS1 / cnt - (sumS1 / cnt) ^ 2))
        let stdS2 := Real.sqrt (max 0 (sqS2 / cnt - (sumS2 / cnt) ^ 2))
        let alpha := if stdS2 > 0 then stdS1 / stdS2 else 1
        S1 + alpha * S2)

/-- `butterworthBandpass` from `src/signal.js`: second-order Butterworth
bandpass biquad (0.75–3.5 Hz, bilinear transform with tangent pre-warping),
run causally with zero initial state. -/
noncomputable def butterworthBandpass (signal : List ℝ) (fps : ℝ) : List ℝ :=
  let wLow := Real.tan (Real.pi * 0.75 / fps)
  let wHigh := Real.tan (Real.pi * 3.5 / fps)
  let bw := wHigh - wLow
  let w0 := Real.sqrt (wLow * wHigh)
  let w0sq := w0 * w0
  let Q := w0 / bw
  let norm := 1 + bw / Q + w0sq
  let a0 := bw / Q / norm
  let a1 : ℝ := 0
  let a2 := -a0
  let b1 := 2 * (w0sq - 1) / norm
  let b2 := (1 - bw / Q + w0sq) / norm
  -- state (x1, x2, y1, y2, output list so far)
  (signal.foldl
    (fun (st : ℝ × ℝ × ℝ × ℝ × List ℝ) x0 =>
      let x1 := st.1
      let x2 := st.2.1
      let y1 := st.2.2.1
      let y2 := st.2.2.2.1
      let out := a0 * x0 + a1 * x1 + a2 * x2 - b1 * y1 - b2 * y2
      (x0, x1, out, y1, st.2.2.2.2 ++ [out]))
    (0, 0, 0, 0, [])).2.2.2.2

/-- `compensateAmbientLight` from `src/signal.js`: rescale all channels by
`luminance[0] / smoothedLuminance[i]`; passthrough below 10 samples. -/
noncomputable def compensateAmbientLight (rSignal gSignal bSignal : List ℝ) :
    List ℝ × List ℝ × List ℝ :=
  let n := rSignal.length
  if n < 10 then (rSignal, gSignal, bSignal)
  else
    let lum := fun i =>
      0.299 * rSignal.getD i 0 + 0.587 * gSignal.getD i 0 + 0.114 * bSignal.getD i 0
    let smoothLum := fun i =>
      let s := i - 30
      let e := min n (i + 30)
      (((List.range (e - s)).map (fun k => lum (s + k))).sum) / ((e - s : ℕ) : ℝ)
    let ratio := fun i => if smoothLum i > 0 then lum 0 / smoothLum i else 1
    ((List.range n).map (fun i => rSignal.getD i 0 * ratio i),
     (List.range n).map (fun i => gSignal.getD i 0 * ratio i),
     (List.range n).map (fun i => bSignal.getD i 0 * ratio i))

/-- The record returned by `fusedHeartRate`: `{hr, filtered, quality}`. -/
structure FusedResult where
  hr : ℝ
  filtered : List ℝ
  quality : QualityScore

/-- `fusedHeartRate` from `src/signal.js`: run POS and CHROM paths
independently, weight by quality score. -/
noncomputable def fusedHeartRate (rSignal gSignal bSignal : List ℝ) (fps : ℝ) :
    FusedResult :=
  let comp := compensateAmbientLight rSignal gSignal bSignal
  let posSig := posAlgorithm comp.1 comp.2.1 comp.2.2 fps
  let chromSig := chromAlgorithm comp.1 comp.2.1 comp.2.2
  let posFiltered := butterworthBandpass posSig fps
  let chromFiltered := butterworthBandpass chromSig fps
  let posQuality := assessSignalQuality posFiltered fps
  let chromQuality := assessSignalQuality chromFiltered fps
  let posHR := welchFFTHeartRate posFiltered fps
  let chromHR := welchFFTHeartRate chromFiltered fps
  let totalQ := posQuality.score + chromQuality.score
  if totalQ = 0 then ⟨posHR, posFiltered, posQuality⟩
  else
    ⟨(posHR * posQuality.score + chromHR * chromQuality.score) / totalQ,
     if posQuality.score ≥ chromQuality.score then posFiltered else chromFiltered,
     if posQuality.score ≥ chromQuality.score then posQuality else chromQuality⟩

end ExtractorDefs

section AnalysisDefs

/-- The record returned by `calculateHRVMetrics`. -/
structure HRVMetrics where
  sdnn : ℝ
  rmssd : ℝ
  pnn50 : ℝ
  lfHfRatio : ℝ
  meanRR : ℝ

/-- `calculateHRVMetrics` from the analysis module: SDNN, RMSSD, pNN50 and a
time-domain LF/HF proxy from R-R intervals; `null` below 3 intervals. -/
noncomputable def calculateHRVMetrics (rrIntervals : List ℝ) : Option HRVMetrics :=
  if rrIntervals.length < 3 then none
  else
    let n := rrIntervals.length
    let mean := rrIntervals.sum / (n : ℝ)
    let variance := (rrIntervals.map (fun v => (v - mean) ^ 2)).sum / (n : ℝ)
    let sdnn := Real.sqrt variance
    -- `for (i = 1; i < n; i++)` over successive differences
    let sumSqDiff := ((List.range (n - 1)).map
      (fun i => (rrIntervals.getD (i + 1) 0 - rrIntervals.getD i 0) ^ 2)).sum
    let rmssd := Real.sqrt (sumSqDiff / ((n - 1 : ℕ) : ℝ))
    let nn50 := ((List.range (n - 1)).map
      (fun i => if |rrIntervals.getD (i + 1) 0 - rrIntervals.getD i 0| > 50
        then (1 : ℝ) else 0)).sum
    let pnn50 := nn50 / ((n - 1 : ℕ) : ℝ) * 100
    let lfHfProxy := if rmssd > 0 then sdnn / rmssd else 1
    some ⟨((round sdnn : ℤ) : ℝ), ((round rmssd : ℤ) : ℝ),
      ((round (pnn50 * 10) : ℤ) : ℝ) / 10,
      ((round (lfHfProxy * 100) : ℤ) : ℝ) / 100, ((round mean : ℤ) : ℝ)⟩

/-- `estimateBreathingRate` from the analysis module: spectral peak in the
respiratory band 0.15–0.5 Hz, reported only when it maps into 8–35
breaths/min; `null` below 90 samples. -/
noncomputable def estimateBreathingRate (signal : List ℝ) (fps : ℝ) : Option ℝ :=
  if signal.length < 90 then none
  else
    let n := nextPow2 signal.length
    let minBin : ℤ := ⌊0.15 * (n : ℝ) / fps⌋
    let maxBin : ℤ := ⌈0.5 * (n : ℝ) / fps⌉
    let peakBin := (peakScan (fftMagSq signal) minBin (max 1 minBin)
      (min maxBin ((n : ℤ) / 2))).2
    let breathsPerMin := (peakBin : ℝ) * fps / (n : ℝ) * 60
    if 8 ≤ breathsPerMin ∧ breathsPerMin ≤ 35 then
      some ((round breathsPerMin : ℤ) : ℝ)
    else none

/-- One harmonic record of `pulseHarmonicAnalysis` (display-only fields —
name, organ, colour, emoji, expected-range string — are omitted). -/
structure Harmonic where
  harmonic : ℕ
  amplitude : ℝ
  frequency : ℝ
  percentage : ℝ
  normalized : ℝ
  status : String

instance : Inhabited Harmonic := ⟨⟨0, 0, 0, 0, 0, ""⟩⟩

/-- The expected-range table of `pulseHarmonicAnalysis` (`strict` selects the
narrow research-grade ranges, otherwise the wider normal ranges). -/
noncomputable def expectedRanges (strict : Bool) : List (ℝ × ℝ) :=
  if strict then
    [(30, 45), (15, 25), (10, 18), (6, 12), (3, 8), (2, 6), (1, 5),
     (0.5, 4), (0.3, 3), (0.2, 2), (0.1, 2)]
  else
    [(25, 55), (12, 28), (7, 20), (4, 14), (2, 10), (1, 8), (0.5, 6),
     (0.3, 5), (0.2, 4), (0.1, 3), (0.1, 3)]

/-- The per-harmonic health-status assignment of `pulseHarmonicAnalysis`
(the `forEach` body), as a function of the harmonic index and its percentage. -/
noncomputable def harmonicStatus (strict : Bool) (i : ℕ) (p : ℝ) : String :=
  let range := (expectedRanges strict).getD i (0, 0)
  let overMult : ℝ := if strict then 1.1 else 1.3
  let weakMult : ℝ := if strict then 0.8 else 0.5
  if p > range.2 * overMult then "偏亢"
  else if range.1 ≤ p ∧ p ≤ range.2 then "正常"
  else if range.1 * weakMult ≤ p ∧ p < range.1 then "偏弱"
  else if p < range.1 * weakMult then "不足"
  else "偏高"

/-- The constitution-assessment cascade of `pulseHarmonicAnalysis` (the
`if/else if` chain over `c0..c4`, `healthyOrder` and the statuses), evaluated
on the final harmonic records in their fixed priority order. -/
noncomputable def constitutionAssessment (strict : Bool) (harmonics : List Harmonic) :
    String :=
  let cp := fun k => (harmonics.getD k default).percentage
  let rmin := fun k => ((expectedRanges strict).getD k (0, 0)).1
  let rmax := fun k => ((expectedRanges strict).getD k (0, 0)).2
  let defMult : ℝ := if strict then 0.8 else 0.6
  let cExcessMult : ℝ := if strict then 1.05 else 1.2
  let healthyOrder := cp 1 > cp 2 ∧ cp 2 > cp 3 ∧ cp 3 > cp 4
  if cp 0 < rmin 0 ∧ cp 3 < rmin 3 then "心脾兩虛（注意心血管）"
  else if cp 1 > rmax 1 * cExcessMult then "肝氣偏旺"
  else if cp 2 < rmin 2 * defMult then "腎氣不足"
  else if cp 3 < rmin 3 * defMult then "脾氣虛弱"
  else if cp 4 < rmin 4 * defMult then "肺氣不足"
  else if healthyOrder ∧ cp 0 ≥ rmin 0 ∧
      (strict = false ∨ ∀ h ∈ harmonics, h.status = "正常") then "氣血平衡"
  else "略有偏差"

/-- The result record of `pulseHarmonicAnalysis` (display-only fields —
emoji, note — are omitted). -/
structure PulseHarmonicResult where
  harmonics : List Harmonic
  fundFreq : ℝ
  constitution : String
  totalEnergy : ℝ
  healthyOrder : Prop
  strictMode : Bool

/-- The amplitude `pulseHarmonicAnalysis` extracts for harmonic `h` given the
fundamental bin: maximum of `sqrt(re²+im²)` within ±2 bins (clamped to
`[1, n/2]`) of the target bin `fundBin · (h == 0 ? 1 : h + 1)` (the source's
`Math.round` is a no-op there because both factors are integers). -/
noncomputable def harmonicAmplitude (signal : List ℝ) (fundBin : ℤ) (h : ℕ) : ℝ :=
  let n := nextPow2 signal.length
  let targetBin : ℤ := fundBin * (if h = 0 then 1 else (h : ℤ) + 1)
  let searchStart := max 1 (targetBin - 2)
  let searchEnd := min ((n : ℤ) / 2) (targetBin + 2)
  ((intRange searchStart searchEnd).foldl
    (fun acc i =>
      let mag := Real.sqrt (fftMagSq signal i)
      if mag > acc then mag else acc) 0)

/-- `pulseHarmonicAnalysis` from the analysis module: find the fundamental
(heart-rate) bin in 0.8–2.5 Hz, extract 11 harmonic amplitudes, convert to
percentages of total energy, attach statuses and a constitution label;
`null` below 90 samples or when the total energy is zero. -/
noncomputable def pulseHarmonicAnalysis (signal : List ℝ) (fps : ℝ) (strict : Bool) :
    Option PulseHarmonicResult :=
  if signal.length < 90 then none
  else
    let n := nextPow2 signal.length
    let hrMinBin : ℤ := max 1 ⌊0.8 * (n : ℝ) / fps⌋
    let hrMaxBin : ℤ := min ⌈2.5 * (n : ℝ) / fps⌉ ((n : ℤ) / 2)
    let fundBin := (peakScan (fun i => Real.sqrt (fftMagSq signal i))
      hrMinBin hrMinBin hrMaxBin).2
    let fundFreq := (fundBin : ℝ) * fps / (n : ℝ)
    let amp := harmonicAmplitude signal fundBin
    let totalEnergy := ((List.range 11).map amp).sum
    if totalEnergy = 0 then none
    else
      let harmonics := (List.range 11).map (fun h =>
        let percentage := amp h / totalEnergy * 100
        ({ harmonic := h
           amplitude := amp h
           frequency := if h = 0 then fundFreq else fundFreq * ((h : ℝ) + 1)
           percentage := percentage
           normalized := amp h / amp 0
           status := harmonicStatus strict h percentage } : Harmonic))
      some
        { harmonics := harmonics
          fundFreq := ((round (fundFreq * 100) : ℤ) : ℝ) / 100
          constitution := constitutionAssessment strict harmonics
          totalEnergy := totalEnergy
          healthyOrder :=
            (harmonics.getD 1 default).percentage > (harmonics.getD 2 default).percentage ∧
            (harmonics.getD 2 default).percentage > (harmonics.getD 3 default).percentage ∧
            (harmonics.getD 3 default).percentage > (harmonics.getD 4 default).percentage
          strictMode := strict }

end AnalysisDefs

section OutlierTheorems

/-- One application of `rejectOutliersIQR` only ever removes elements: both
branches of the source return a sublist of the input. -/
theorem rejectOutliersIQR_sublist (v : List ℚ) :
    List.Sublist (rejectOutliersIQR v) v := by
  unfold rejectOutliersIQR
  split
  · exact List.Sublist.refl v
  · exact List.filter_sublist v

/-- C1 counterexample.  On `[10,10,10,10,14,100]` (length ≥ 4) the first
application keeps `14` (bounds `[4, 20]` from `Q1 = 10`, `Q3 = 14`), but the
second application, recomputing the quartiles on the five survivors, gets
`Q1 = Q3 = 10` and rejects `14`: the set of retained values is not the same,
so `rejectOutliersIQR` is not idempotent. -/
theorem rejectOutliersIQR_not_idempotent_example :
    4 ≤ ([10, 10, 10, 10, 14, 100] : List ℚ).length ∧
    (14 : ℚ) ∈ rejectOutliersIQR [10, 10, 10, 10, 14, 100] ∧
    (14 : ℚ) ∉ rejectOutliersIQR (rejectOutliersIQR [10, 10, 10, 10, 14, 100]) := by
  have h1 : rejectOutliersIQR [10, 10, 10, 10, 14, 100] = [10, 10, 10, 10, 14] := by
    norm_num [rejectOutliersIQR, List.insertionSort, List.orderedInsert, List.filter]
  have h2 : rejectOutliersIQR [10, 10, 10, 10, 14] = [10, 10, 10, 10] := by
    norm_num [rejectOutliersIQR, List.insertionSort, List.orderedInsert, List.filter]
  rw [h1, h2]
  norm_num

/-- C1 amended.  Applying `rejectOutliersIQR` twice yields a subset (in fact
a sublist) of the values retained by applying it once — the second
application may strictly reject further values, as the counterexample shows,
but never adds any. -/
theorem rejectOutliersIQR_twice_sublist (v : List ℚ) :
    List.Sublist (rejectOutliersIQR (rejectOutliersIQR v)) (rejectOutliersIQR v) :=
  rejectOutliersIQR_sublist (rejectOutliersIQR v)

end OutlierTheorems

section QualityTheorems

/-- Rounding is monotone (`round x = ⌊x + 1/2⌋`). -/
theorem round_mono_real {x y : ℝ} (h : x ≤ y) : round x ≤ round y := by
  rw [round_eq, round_eq]
  exact Int.floor_mono (by linarith)

/-- The score field of `assessSignalQuality` is always of the clamped shape
`min 99 (max 0 k)` for some integer `k` (the short-input branch returns `0`,
which has this shape too). -/
theorem assessSignalQuality_score_shape (signal : List ℝ) (fps : ℝ) :
    ∃ k : ℤ, (assessSignalQuality signal fps).score = ((min 99 (max 0 k) : ℤ) : ℝ) := by
  unfold assessSignalQuality
  by_cases h : signal.length < 60
  · exact ⟨0, by simp [h]⟩
  · simp only [h, if_false]
    exact ⟨_, rfl⟩

/-- The quality score is never negative. -/
theorem assessSignalQuality_score_nonneg (signal : List ℝ) (fps : ℝ) :
    0 ≤ (assessSignalQuality signal fps).score := by
  obtain ⟨k, hk⟩ := assessSignalQuality_score_shape signal fps
  rw [hk]
  have : (0 : ℤ) ≤ min 99 (max 0 k) := le_min (by norm_num) (le_max_left 0 k)
  exact_mod_cast this

/-- C5.  `assessSignalQuality` returns an integer score in `[0, 99]`,
`usable` holds exactly when the score exceeds 25, and any waveform shorter
than 60 samples gets score 0 and is unusable. -/
theorem assessSignalQuality_score_range (signal : List ℝ) (fps : ℝ) :
    (∃ k : ℤ, (assessSignalQuality signal fps).score = (k : ℝ)) ∧
    0 ≤ (assessSignalQuality signal fps).score ∧
    (assessSignalQuality signal fps).score ≤ 99 ∧
    ((assessSignalQuality signal fps).usable ↔ (assessSignalQuality signal fps).score > 25) ∧
    (signal.length < 60 →
      (assessSignalQuality signal fps).score = 0 ∧ ¬ (assessSignalQuality signal fps).usable) := by
  obtain ⟨k, hk⟩ := assessSignalQuality_score_shape signal fps
  refine ⟨⟨min 99 (max 0 k), hk⟩, assessSignalQuality_score_nonneg signal fps, ?_, ?_, ?_⟩
  · rw [hk]
    have : min 99 (max 0 k) ≤ (99 : ℤ) := min_le_left _ _
    exact_mod_cast this
  · unfold assessSignalQuality
    by_cases h : signal.length < 60
    · simp only [h, if_true]
      norm_num
    · simp only [h, if_false]
  · intro h
    unfold assessSignalQuality
    simp only [h, if_true]
    norm_num

/-- C5 witness: on the one-sample waveform the theorem yields score `0`,
not usable. -/
theorem assessSignalQuality_score_range_witness :
    0 ≤ (assessSignalQuality [1] 30).score ∧
    (assessSignalQuality [1] 30).score = 0 ∧
    ¬ (assessSignalQuality [1] 30).usable := by
  have h := assessSignalQuality_score_range [1] 30
  have hshort := h.2.2.2.2 (by norm_num)
  exact ⟨h.2.1, hshort.1, hshort.2⟩

end QualityTheorems

section AnalysisTheorems

/-- C9.  Below their documented minimum input sizes, the metric-layer
estimators return an explicit absent result: `calculateHRVMetrics` needs at
least 3 R-R intervals, `estimateBreathingRate` and `pulseHarmonicAnalysis`
at least 90 samples. -/
theorem estimators_null_below_minimum (rr sig1 sig2 : List ℝ) (fps1 fps2 : ℝ)
    (strict : Bool) (h1 : rr.length < 3) (h2 : sig1.length < 90)
    (h3 : sig2.length < 90) :
    calculateHRVMetrics rr = none ∧
    estimateBreathingRate sig1 fps1 = none ∧
    pulseHarmonicAnalysis sig2 fps2 strict = none := by
  refine ⟨?_, ?_, ?_⟩
  · unfold calculateHRVMetrics
    simp [h1]
  · unfold estimateBreathingRate
    simp [h2]
  · unfold pulseHarmonicAnalysis
    simp [h3]

/-- C9 witness: concrete undersized inputs. -/
theorem estimators_null_below_minimum_witness :
    calculateHRVMetrics [800, 810] = none ∧
    estimateBreathingRate [1] 30 = none ∧
    pulseHarmonicAnalysis [1] 30 false = none :=
  estimators_null_below_minimum [800, 810] [1] [1] 30 30 false
    (by norm_num) (by norm_num) (by norm_num)

/-- Rounding a real in `[8, 35]` stays in `[8, 35]`. -/
theorem round_mem_band {x : ℝ} (h8 : 8 ≤ x) (h35 : x ≤ 35) :
    (8 : ℝ) ≤ ((round x : ℤ) : ℝ) ∧ ((round x : ℤ) : ℝ) ≤ 35 := by
  constructor
  · have h1 : (8 : ℤ) ≤ round x := by
      calc (8 : ℤ) = round ((8 : ℝ)) := by rw [round_eq]; norm_num
      _ ≤ round x := round_mono_real h8
    exact_mod_cast h1
  · have h1 : round x ≤ (35 : ℤ) := by
      calc round x ≤ round ((35 : ℝ)) := round_mono_real h35
      _ = 35 := by rw [round_eq]; norm_num
    exact_mod_cast h1

/-- C8.  Whenever `estimateBreathingRate` returns a value, that value lies in
the physiologically plausible 8–35 breaths/min band: an out-of-band spectral
peak is discarded (`none`), and rounding an in-band value cannot leave the
band. -/
theorem breathing_rate_plausible_range (signal : List ℝ) (fps : ℝ) :
    (estimateBreathingRate signal fps).elim True (fun b => 8 ≤ b ∧ b ≤ 35) := by
  unfold estimateBreathingRate
  by_cases hl : signal.length < 90
  · simp [hl]
  · simp only [hl, if_false]
    split
    · next h =>
      simp only [Option.elim_some]
      exact round_mem_band h.1 h.2
    · simp

end AnalysisTheorems

section HarmonicTheorems

/-- Summing `amp h / T * 100` over the 11 harmonics gives exactly 100 when
`T` is the sum of the 11 amplitudes and is non-zero. -/
theorem percentage_sum_aux (amp : ℕ → ℝ)
    (hT : ((List.range 11).map amp).sum ≠ 0) :
    ((List.range 11).map (fun h => amp h / ((List.range 11).map amp).sum * 100)).sum
      = 100 := by
  set T := ((List.range 11).map amp).sum with hTdef
  have h1 : (fun h => amp h / T * 100) = fun h => amp h * (100 / T) := by
    funext h
    ring
  rw [h1, List.sum_map_mul_right, ← hTdef]
  field_simp

/-- C7.  Whenever `pulseHarmonicAnalysis` returns a profile, the 11 harmonic
percentages sum to exactly 100: each percentage is
`amplitude / totalEnergy · 100` and `totalEnergy` is the sum of the 11
amplitudes, which the function requires to be non-zero. -/
theorem harmonic_percentages_sum (signal : List ℝ) (fps : ℝ) (strict : Bool) :
    (pulseHarmonicAnalysis signal fps strict).elim True
      (fun r => (r.harmonics.map Harmonic.percentage).sum = 100) := by
  unfold pulseHarmonicAnalysis
  by_cases hl : signal.length < 90
  · simp [hl]
  · simp only [hl, if_false]
    split
    · simp
    · next hT =>
      simp only [Option.elim_some, List.map_map]
      exact percentage_sum_aux _ hT

end HarmonicTheorems

section ConstitutionTheorems

/-- C6.  In the constitution cascade of `pulseHarmonicAnalysis`, rule (a) —
both C0's and C3's percentage below their expected minimum — is tested first
and wins regardless of any later rule: whenever its condition holds, the
assigned label is the combined cardiac/spleen-deficiency pattern. -/
theorem constitution_rule_a_priority (strict : Bool) (harmonics : List Harmonic)
    (h0 : (harmonics.getD 0 default).percentage
      < ((expectedRanges strict).getD 0 (0, 0)).1)
    (h3 : (harmonics.getD 3 default).percentage
      < ((expectedRanges strict).getD 3 (0, 0)).1) :
    constitutionAssessment strict harmonics = "心脾兩虛（注意心血管）" := by
  unfold constitutionAssessment
  exact if_pos ⟨h0, h3⟩

/-- C6 witness: synthetic percentages that satisfy rule (a) (C0 at 20% < 25%,
C3 at 3% < 4% in normal mode) while C1 > C2 > C3 > C4 also holds, so later
rules of the cascade would also fire; the result is still rule (a)'s label. -/
theorem constitution_rule_a_priority_witness :
    constitutionAssessment false
      [⟨0, 0, 0, 20, 0, ""⟩, ⟨1, 0, 0, 40, 0, ""⟩, ⟨2, 0, 0, 20, 0, ""⟩,
       ⟨3, 0, 0, 3, 0, ""⟩, ⟨4, 0, 0, 2, 0, ""⟩] = "心脾兩虛（注意心血管）" :=
  constitution_rule_a_priority false _
    (by norm_num [expectedRanges]) (by norm_num [expectedRanges])

end ConstitutionTheorems

section FusionTheorems

/-- C4.  `fusedHeartRate` reports the POS path's HR, filtered waveform and
quality exactly when both quality scores are 0 (the source's `totalQ === 0`
test is equivalent because scores are never negative); otherwise it reports
the quality-weighted average HR and surfaces the filtered waveform and
quality of the path with the strictly higher score, ties favouring POS. -/
theorem fusedHeartRate_fusion_policy (rSignal gSignal bSignal : List ℝ) (fps : ℝ) :
    fusedHeartRate rSignal gSignal bSignal fps =
      (let comp := compensateAmbientLight rSignal gSignal bSignal
       let posFiltered := butterworthBandpass (posAlgorithm comp.1 comp.2.1 comp.2.2 fps) fps
       let chromFiltered := butterworthBandpass (chromAlgorithm comp.1 comp.2.1 comp.2.2) fps
       let posQuality := assessSignalQuality posFiltered fps
       let chromQuality := assessSignalQuality chromFiltered fps
       let posHR := welchFFTHeartRate posFiltered fps
       let chromHR := welchFFTHeartRate chromFiltered fps
       if posQuality.score = 0 ∧ chromQuality.score = 0 then
         ⟨posHR, posFiltered, posQuality⟩
       else
         ⟨(posHR * posQuality.score + chromHR * chromQuality.score) /
            (posQuality.score + chromQuality.score),
          if chromQuality.score > posQuality.score then chromFiltered else posFiltered,
          if chromQuality.score > posQuality.score then chromQuality else posQuality⟩) := by
  unfold fusedHeartRate
  dsimp only
  have hp := assessSignalQuality_score_nonneg
    (butterworthBandpass (posAlgorithm (compensateAmbientLight rSignal gSignal bSignal).1
      (compensateAmbientLight rSignal gSignal bSignal).2.1
      (compensateAmbientLight rSignal gSignal bSignal).2.2 fps) fps) fps
  have hc := assessSignalQuality_score_nonneg
    (butterworthBandpass (chromAlgorithm (compensateAmbientLight rSignal gSignal bSignal).1
      (compensateAmbientLight rSignal gSignal bSignal).2.1
      (compensateAmbientLight rSignal gSignal bSignal).2.2) fps) fps
  rw [if_congr (add_eq_zero_iff_of_nonneg hp hc) rfl rfl]
  split
  · rfl
  · have hswap : ∀ (x y : ℝ) (A B : List ℝ),
        (if x ≥ y then A else B) = (if y > x then B else A) := by
      intro x y A B
      by_cases h : x ≥ y
      · rw [if_pos h, if_neg (not_lt.mpr h)]
      · rw [if_neg h, if_pos (lt_of_not_ge h)]
    have hswapQ : ∀ (x y : ℝ) (A B : QualityScore),
        (if x ≥ y then A else B) = (if y > x then B else A) := by
      intro x y A B
      by_cases h : x ≥ y
      · rw [if_pos h, if_neg (not_lt.mpr h)]
      · rw [if_neg h, if_pos (lt_of_not_ge h)]
    rw [hswap, hswapQ]

end FusionTheorems

section WelchTheorems

/-- `nextPow2Go` reaches at least `n` whenever the fuel allows enough
doublings. -/
theorem nextPow2Go_ge (fuel : ℕ) : ∀ p n : ℕ, 1 ≤ p → n ≤ p * 2 ^ fuel →
    n ≤ nextPow2Go fuel p n := by
  induction fuel with
  | zero =>
    intro p n _ hle
    simpa [nextPow2Go] using hle
  | succ fuel ih =>
    intro p n hp hle
    unfold nextPow2Go
    by_cases h : p < n
    · rw [if_pos h]
      refine ih (p <<< 1) n (by simp [Nat.shiftLeft_eq]; omega) ?_
      calc n ≤ p * 2 ^ (fuel + 1) := hle
      _ = p <<< 1 * 2 ^ fuel := by rw [Nat.shiftLeft_eq]; ring
    · rw [if_neg h]
      omega

/-- `nextPow2 n` is at least `n`. -/
theorem nextPow2_ge (n : ℕ) : n ≤ nextPow2 n :=
  nextPow2Go_ge n 1 n le_rfl (by simpa using (Nat.lt_two_pow n).le)

/-- C10.  For a non-empty signal, `welchFFTHeartRate` always forms exactly
one segment: `segLen = min(nextPow2(len), len) = len`, so `nSegs = 1`, the
fewer-than-one-full-segment fallback to `fftHeartRate` is never taken, and
the averaged spectrum is just the single Hann-windowed periodogram of the
whole signal — the same spectrum `fftHeartRate` computes.  (The `1 ≤ length`
hypothesis marks the claim's non-empty scope; an empty signal makes the
JavaScript arithmetic produce `NaN`.) -/
theorem welch_single_segment (signal : List ℝ) (fps : ℝ) (_h : 1 ≤ signal.length) :
    welchSegLen signal = signal.length ∧
    welchNSegs signal = 1 ∧
    welchFFTHeartRate signal fps = welchBody signal fps ∧
    (∀ i : ℕ, welchAvgSpec signal i =
      (fftSpectrum signal).1 i * (fftSpectrum signal).1 i +
        (fftSpectrum signal).2 i * (fftSpectrum signal).2 i) := by
  have hseg : welchSegLen signal = signal.length :=
    min_eq_right (nextPow2_ge signal.length)
  have hn : welchNSegs signal = 1 := by
    unfold welchNSegs
    rw [hseg]
    simp
  refine ⟨hseg, hn, ?_, ?_⟩
  · unfold welchFFTHeartRate
    rw [hn]
    simp
  · intro i
    unfold welchAvgSpec
    rw [hn]
    rw [show List.range 1 = [0] from rfl]
    simp only [List.map_cons, List.map_nil, List.sum_cons, List.sum_nil,
      add_zero, Nat.cast_one, div_one, Nat.zero_mul]
    unfold welchN
    rw [hseg]
    rfl

/-- C10 witness: the three-sample signal. -/
theorem welch_single_segment_witness :
    welchSegLen [1, 2, 3] = 3 ∧
    welchNSegs [1, 2, 3] = 1 ∧
    welchFFTHeartRate [1, 2, 3] 30 = welchBody [1, 2, 3] 30 ∧
    welchAvgSpec [1, 2, 3] 0 =
      (fftSpectrum [1, 2, 3]).1 0 * (fftSpectrum [1, 2, 3]).1 0 +
        (fftSpectrum [1, 2, 3]).2 0 * (fftSpectrum [1, 2, 3]).2 0 := by
  have h := welch_single_segment [1, 2, 3] 30 (by norm_num)
  exact ⟨h.1, h.2.1, h.2.2.1, h.2.2.2 0⟩

end WelchTheorems

section ShortInputTheorems

/-- A peak scan over an identically-zero magnitude function never moves off
its initial bin (the strict `mag > maxMag` test never fires). -/
theorem peakScan_of_zero (mag : ℤ → ℝ) (h : ∀ i, mag i = 0) (init lo hi : ℤ) :
    peakScan mag init lo hi = (0, init) := by
  unfold peakScan
  generalize intRange lo hi = l
  induction l with
  | nil => rfl
  | cons a t ih =>
    simp only [List.foldl_cons]
    rw [h a, if_neg (lt_irrefl 0)]
    exact ih

/-- A butterfly block applied to all-zero arrays leaves them all-zero,
whatever the twiddle factors are. -/
theorem butterflyInner_zero (wRe wIm : ℝ) :
    butterflyInner wRe wIm 0 1 (fun _ => 0) (fun _ => 0) =
      (fun _ => (0 : ℝ), fun _ => (0 : ℝ)) := by
  unfold butterflyInner
  rw [show List.range 1 = [0] from rfl]
  simp only [List.foldl_cons, List.foldl_nil]
  refine Prod.ext ?_ ?_ <;>
  · funext k
    simp [Function.update_apply]

/-- The two-point `fft` of all-zero arrays is all-zero. -/
theorem fft_two_zero :
    fft (fun _ => 0) (fun _ => 0) 2 = (fun _ => (0 : ℝ), fun _ => (0 : ℝ)) := by
  unfold fft
  have hbr : bitrevPass 2 (fun _ => 0) (fun _ => 0) =
      (fun _ => (0 : ℝ), fun _ => (0 : ℝ)) := by
    unfold bitrevPass
    rw [show List.range' 1 (2 - 1) = [1] from rfl]
    simp only [List.foldl_cons, List.foldl_nil]
    rw [show brNext 2 0 = 1 from rfl, if_neg (lt_irrefl 1)]
  rw [hbr, show stageLens 2 2 2 = [2] from rfl]
  simp only [List.foldl_cons, List.foldl_nil]
  unfold stagePass
  rw [show (List.range (2 / 2)).map (· * 2) = [0] from rfl]
  simp only [List.foldl_cons, List.foldl_nil]
  exact butterflyInner_zero _ _

/-- On any two-sample signal the Hann window zeroes both samples
(`w(0) = 0.5(1 - cos 0)` and `w(1) = 0.5(1 - cos 2π)` both vanish). -/
theorem segRe_length_two (signal : List ℝ) (h2 : signal.length = 2) :
    segRe signal 0 signal.length = fun _ => 0 := by
  have hw0 : hannW 2 0 = 0 := by
    unfold hannW
    norm_num
  have hw1 : hannW 2 1 = 0 := by
    unfold hannW
    norm_num [Real.cos_two_pi]
  funext i
  unfold segRe
  rw [h2]
  match i with
  | 0 => rw [if_pos (by omega)]; rw [hw0, mul_zero]
  | 1 => rw [if_pos (by omega)]; rw [hw1, mul_zero]
  | (k + 2) => rw [if_neg (by omega)]

/-- Full evaluation of `fftHeartRate` on any two-sample signal: the windowed
spectrum is identically zero, the scan never moves off `minBin`, the
refinement guard `0 < k < n/2 = 1` cannot hold, and the reported value is
`minBin · fps / 2 · 60`. -/
theorem fftHeartRate_len2_eval (signal : List ℝ) (fps : ℝ) (h2 : signal.length = 2) :
    fftHeartRate signal fps = ((⌊0.67 * (2 : ℝ) / fps⌋ : ℤ) : ℝ) * fps / 2 * 60 := by
  have hn : nextPow2 signal.length = 2 := by rw [h2]; rfl
  have hspec : fftSpectrum signal = (fun _ => 0, fun _ => 0) := by
    unfold fftSpectrum
    rw [segRe_length_two signal h2, hn]
    exact fft_two_zero
  have hmag : ∀ i, fftMagSq signal i = 0 := by
    intro i
    unfold fftMagSq
    rw [hspec]
    norm_num
  have hmin : fftMinBin signal fps = ⌊0.67 * (2 : ℝ) / fps⌋ := by
    unfold fftMinBin
    rw [hn]
    norm_num
  have hpeak : fftPeakBin signal fps = ⌊0.67 * (2 : ℝ) / fps⌋ := by
    unfold fftPeakBin
    rw [peakScan_of_zero _ hmag, hmin]
  have hdelta : fftDelta signal fps = 0 := by
    unfold fftDelta
    rw [hn]
    exact if_neg (by omega)
  unfold fftHeartRate
  rw [hpeak, hdelta, hn]
  norm_num

/-- C3 counterexample.  `fftHeartRate` has no minimum-length guard: on the
two-sample signal `[1, 1]` (length < 3) it still returns a number — here `0`
— instead of an explicit no-result, so the spectral transform does not fail
on inputs shorter than 3 samples. -/
theorem fftHeartRate_short_input_returns_value :
    (([1, 1] : List ℝ)).length < 3 ∧ fftHeartRate [1, 1] 30 = 0 := by
  refine ⟨by norm_num, ?_⟩
  rw [fftHeartRate_len2_eval [1, 1] 30 (by norm_num)]
  have h : (⌊0.67 * (2 : ℝ) / 30⌋ : ℤ) = 0 := by
    rw [Int.floor_eq_zero_iff]
    constructor <;> norm_num
  rw [h]
  norm_num

/-- C3 amended.  For inputs shorter than 3 samples the transform does not
fail; it computes a numeric estimate.  Concretely, on every two-sample
signal the Hann window zeroes the whole input, the peak scan stays at
`minBin = ⌊0.67·2/fps⌋`, and `fftHeartRate` reports `minBin · fps / 2 · 60`
(e.g. `0` for `fps = 30`).  The `0 < fps` hypothesis marks the physical
parameter range; the one-sample case differs only in that JavaScript's
`0/0 = NaN` window poisons the value, which is still a number, not an absent
result. -/
theorem fftHeartRate_length_two_numeric (signal : List ℝ) (fps : ℝ)
    (h2 : signal.length = 2) (_hfps : 0 < fps) :
    fftHeartRate signal fps = ((⌊0.67 * (2 : ℝ) / fps⌋ : ℤ) : ℝ) * fps / 2 * 60 :=
  fftHeartRate_len2_eval signal fps h2

/-- C3 amended witness: the two-sample signal `[2, 5]` at 8 fps, where
`minBin = ⌊0.1675⌋ = 0`, giving the reported estimate `0`. -/
theorem fftHeartRate_length_two_numeric_witness :
    fftHeartRate [2, 5] 8 = ((⌊0.67 * (2 : ℝ) / 8⌋ : ℤ) : ℝ) * 8 / 2 * 60 :=
  fftHeartRate_length_two_numeric [2, 5] 8 (by norm_num) (by norm_num)

end ShortInputTheorems

section ParabolicTheorems

/-- The sub-bin offset of the Welch estimator always lies strictly inside
`(-1, 1)`: the source only applies the interpolation under an explicit
`|δ| < 1` guard, and every other path reports the raw peak bin (`δ = 0`). -/
theorem welchDelta_bounded (signal : List ℝ) (fps : ℝ) :
    -1 < welchDelta signal fps ∧ welchDelta signal fps < 1 := by
  unfold welchDelta
  dsimp only
  split_ifs with hc1 hc2 hc3
  · exact abs_lt.mp hc3
  · norm_num
  · norm_num
  · norm_num

/-- The sub-bin offset of the single-window estimator lies strictly inside
`(-1, 1)` whenever neither neighbour of the peak bin out-magnitudes the peak
(which the scan guarantees when both neighbours lie inside the scanned
band). -/
theorem fftDelta_bounded_of_neighbors_le (signal : List ℝ) (fps : ℝ)
    (h1 : fftMagSq signal (fftPeakBin signal fps - 1)
      ≤ fftMagSq signal (fftPeakBin signal fps))
    (h2 : fftMagSq signal (fftPeakBin signal fps + 1)
      ≤ fftMagSq signal (fftPeakBin signal fps)) :
    -1 < fftDelta signal fps ∧ fftDelta signal fps < 1 := by
  unfold fftDelta
  dsimp only
  split_ifs with hk
  · set a := fftMagSq signal (fftPeakBin signal fps - 1) with ha
    set b := fftMagSq signal (fftPeakBin signal fps) with hb
    set c := fftMagSq signal (fftPeakBin signal fps + 1) with hc
    by_cases hD : a - 2 * b + c = 0
    · rw [hD]
      norm_num
    · have hD' : a - 2 * b + c < 0 := by
        rcases lt_or_eq_of_le (by linarith : a - 2 * b + c ≤ 0) with h | h
        · exact h
        · exact absurd h hD
      have h2D : 2 * (a - 2 * b + c) < 0 := by linarith
      constructor
      · rw [lt_div_iff_of_neg h2D]
        linarith
      · rw [div_lt_iff_of_neg h2D]
        linarith
  · norm_num

/-- C2 amended.  The sub-bin parabolic refinement keeps the reported bin
strictly between the peak bin's neighbours: for the Welch estimator
unconditionally (for every signal and fps), and for the single-window
estimator whenever the magnitudes at `peakBin ± 1` do not exceed the peak's
magnitude — which the scan guarantees for a peak strictly interior to the
scanned band, but which can fail when the peak sits on the band edge next to
an unscanned dominant bin (the counterexample): there `fftHeartRate`'s
refined bin escapes the interval. -/
theorem parabolic_refinement_bounded (signal : List ℝ) (fps : ℝ) :
    ((welchPeakBin signal fps : ℝ) - 1
        < (welchPeakBin signal fps : ℝ) + welchDelta signal fps ∧
      (welchPeakBin signal fps : ℝ) + welchDelta signal fps
        < (welchPeakBin signal fps : ℝ) + 1) ∧
    (fftMagSq signal (fftPeakBin signal fps - 1)
        ≤ fftMagSq signal (fftPeakBin signal fps) →
      fftMagSq signal (fftPeakBin signal fps + 1)
        ≤ fftMagSq signal (fftPeakBin signal fps) →
      ((fftPeakBin signal fps : ℝ) - 1
          < (fftPeakBin signal fps : ℝ) + fftDelta signal fps ∧
        (fftPeakBin signal fps : ℝ) + fftDelta signal fps
          < (fftPeakBin signal fps : ℝ) + 1)) := by
  constructor
  · have hw := welchDelta_bounded signal fps
    constructor <;> linarith [hw.1, hw.2]
  · intro h1 h2
    have hf := fftDelta_bounded_of_neighbors_le signal fps h1 h2
    constructor <;> linarith [hf.1, hf.2]

end ParabolicTheorems

section FFTEvaluation

/-- Writing into a list-backed array-function is writing into the list. -/
theorem vecFn_update (L : List ℝ) (idx : ℕ) (v : ℝ) (hidx : idx < L.length) :
    Function.update (vecFn L) idx v = vecFn (L.set idx v) := by
  funext m
  simp only [vecFn, Function.update_apply]
  by_cases h : m = idx
  · subst h
    rw [if_pos rfl]
    rw [List.getD_eq_getElem?_getD, List.getElem?_set_self', List.getElem?_eq_getElem hidx]
    simp
  · rw [if_neg h]
    rw [List.getD_eq_getElem?_getD, List.getD_eq_getElem?_getD,
      List.getElem?_set_ne (fun hh => h hh.symm)]

/-- Reading a list-backed array-function. -/
theorem vecFn_apply (L : List ℝ) (m : ℕ) : vecFn L m = L.getD m 0 := rfl

/-- The all-zero array of length 8 as a list-backed function. -/
theorem zeroFn_eq_vecFn_eight :
    (fun _ => (0 : ℝ)) = vecFn [0, 0, 0, 0, 0, 0, 0, 0] := by
  funext m
  rcases m with _ | _ | _ | _ | _ | _ | _ | _ | k
  repeat rfl

/-- Twiddle factor of the length-4 stage: `cos(-2π/4) = 0`. -/
theorem stage4_cos : Real.cos (-(2 * Real.pi) / ((4 : ℕ) : ℝ)) = 0 := by
  rw [show (-(2 * Real.pi) / ((4 : ℕ) : ℝ)) = -(Real.pi / 2) by push_cast; ring]
  rw [Real.cos_neg, Real.cos_pi_div_two]

/-- Twiddle factor of the length-4 stage: `sin(-2π/4) = -1`. -/
theorem stage4_sin : Real.sin (-(2 * Real.pi) / ((4 : ℕ) : ℝ)) = -1 := by
  rw [show (-(2 * Real.pi) / ((4 : ℕ) : ℝ)) = -(Real.pi / 2) by push_cast; ring]
  rw [Real.sin_neg, Real.sin_pi_div_two]

/-- Twiddle factor of the length-8 stage: `cos(-2π/8) = √2/2`. -/
theorem stage8_cos : Real.cos (-(2 * Real.pi) / ((8 : ℕ) : ℝ)) = Real.sqrt 2 / 2 := by
  rw [show (-(2 * Real.pi) / ((8 : ℕ) : ℝ)) = -(Real.pi / 4) by push_cast; ring]
  rw [Real.cos_neg, Real.cos_pi_div_four]

/-- Twiddle factor of the length-8 stage: `sin(-2π/8) = -√2/2`. -/
theorem stage8_sin : Real.sin (-(2 * Real.pi) / ((8 : ℕ) : ℝ)) = -(Real.sqrt 2 / 2) := by
  rw [show (-(2 * Real.pi) / ((8 : ℕ) : ℝ)) = -(Real.pi / 4) by push_cast; ring]
  rw [Real.sin_neg, Real.sin_pi_div_four]

/-- The 8-point bit-reversal permutation on an input of the shape
`[0, p, q, r, 0, 0, 0, 0]` swaps positions 1↔4 and 3↔6. -/
theorem bitrev8_eval (p q r : ℝ) :
    bitrevPass 8 (vecFn [0, p, q, r, 0, 0, 0, 0]) (vecFn [0, 0, 0, 0, 0, 0, 0, 0]) =
      (vecFn [0, 0, q, 0, p, 0, r, 0], vecFn [0, 0, 0, 0, 0, 0, 0, 0]) := by
  unfold bitrevPass
  rw [show List.range' 1 (8 - 1) = [1, 2, 3, 4, 5, 6, 7] from rfl]
  simp only [List.foldl_cons, List.foldl_nil]
  norm_num [show brNext 8 0 = 4 from by decide, show brNext 8 4 = 2 from by decide,
    show brNext 8 2 = 6 from by decide, show brNext 8 6 = 1 from by decide,
    show brNext 8 1 = 5 from by decide, show brNext 8 5 = 3 from by decide,
    show brNext 8 3 = 7 from by decide, vecFn_update, vecFn_apply, List.getD]

/-- The length-2 butterfly stage on the bit-reversed input. -/
theorem stage2_eval (p q r : ℝ) :
    stagePass 8 2 (vecFn [0, 0, q, 0, p, 0, r, 0], vecFn [0, 0, 0, 0, 0, 0, 0, 0]) =
      (vecFn [0, 0, q, q, p, p, r, r], vecFn [0, 0, 0, 0, 0, 0, 0, 0]) := by
  unfold stagePass
  rw [show (List.range (8 / 2)).map (· * 2) = [0, 2, 4, 6] from by decide]
  simp only [List.foldl_cons, List.foldl_nil]
  norm_num [butterflyInner, show List.range 1 = [0] from rfl,
    vecFn_update, vecFn_apply, List.getD]

/-- The length-4 butterfly stage. -/
theorem stage4_eval (p q r : ℝ) :
    stagePass 8 4 (vecFn [0, 0, q, q, p, p, r, r], vecFn [0, 0, 0, 0, 0, 0, 0, 0]) =
      (vecFn [q, 0, -q, 0, p + r, p, p - r, p],
       vecFn [0, -q, 0, q, 0, -r, 0, r]) := by
  unfold stagePass
  rw [show (List.range (8 / 4)).map (· * 4) = [0, 4] from by decide]
  simp only [List.foldl_cons, List.foldl_nil, stage4_cos, stage4_sin]
  norm_num [butterflyInner, show List.range 2 = [0, 1] from rfl,
    vecFn_update, vecFn_apply, List.getD]

/-- The length-8 butterfly stage, producing the final spectrum of the
`[0, p, q, r, 0, 0, 0, 0]` input. -/
theorem stage8_eval (p q r : ℝ) :
    stagePass 8 8 (vecFn [q, 0, -q, 0, p + r, p, p - r, p],
      vecFn [0, -q, 0, q, 0, -r, 0, r]) =
      (vecFn [p + q + r, Real.sqrt 2 / 2 * (p - r), -q, -(Real.sqrt 2 / 2 * (p - r)),
        q - p - r, -(Real.sqrt 2 / 2 * (p - r)), -q, Real.sqrt 2 / 2 * (p - r)],
       vecFn [0, -q - Real.sqrt 2 / 2 * (p + r), r - p, q - Real.sqrt 2 / 2 * (p + r),
        0, -q + Real.sqrt 2 / 2 * (p + r), p - r, q + Real.sqrt 2 / 2 * (p + r)]) := by
  unfold stagePass
  rw [show (List.range (8 / 8)).map (· * 8) = [0] from by decide]
  simp only [List.foldl_cons, List.foldl_nil, stage8_cos, stage8_sin]
  norm_num [butterflyInner, show List.range 4 = [0, 1, 2, 3] from rfl,
    vecFn_update, vecFn_apply, List.getD]
  have h2 : Real.sqrt 2 ^ 2 = 2 := Real.sq_sqrt (by norm_num)
  have h3 : Real.sqrt 2 ^ 3 = 2 * Real.sqrt 2 := by
    rw [pow_succ, h2]
  constructor
  · apply congrArg vecFn
    norm_num [List.cons.injEq]
    ring_nf
    simp only [h2, h3]
    norm_num
    repeat' constructor
    all_goals ring
  · apply congrArg vecFn
    norm_num [List.cons.injEq]
    ring_nf
    simp only [h2, h3]
    norm_num
    repeat' constructor
    all_goals ring

/-- Full 8-point `fft` of the windowed input shape `[0, p, q, r, 0, 0, 0, 0]`. -/
theorem fft8_eval (p q r : ℝ) :
    fft (vecFn [0, p, q, r, 0, 0, 0, 0]) (fun _ => 0) 8 =
      (vecFn [p + q + r, Real.sqrt 2 / 2 * (p - r), -q, -(Real.sqrt 2 / 2 * (p - r)),
        q - p - r, -(Real.sqrt 2 / 2 * (p - r)), -q, Real.sqrt 2 / 2 * (p - r)],
       vecFn [0, -q - Real.sqrt 2 / 2 * (p + r), r - p, q - Real.sqrt 2 / 2 * (p + r),
        0, -q + Real.sqrt 2 / 2 * (p + r), p - r, q + Real.sqrt 2 / 2 * (p + r)]) := by
  unfold fft
  rw [zeroFn_eq_vecFn_eight, show stageLens 8 2 8 = [2, 4, 8] from by decide]
  simp only [List.foldl_cons, List.foldl_nil]
  rw [bitrev8_eval, stage2_eval, stage4_eval, stage8_eval]

end FFTEvaluation

section CounterexampleEvaluation

/-- The Hann window on a five-sample signal: coefficients
`0, 1/2, 1, 1/2, 0` (denominator `len - 1 = 4`). -/
theorem segRe_five (s0 s1 s2 s3 s4 : ℝ) :
    segRe [s0, s1, s2, s3, s4] 0 5 =
      vecFn [0, s1 * (1 / 2), s2, s3 * (1 / 2), 0, 0, 0, 0] := by
  have hw0 : hannW 5 0 = 0 := by
    unfold hannW
    norm_num
  have hw1 : hannW 5 1 = 1 / 2 := by
    unfold hannW
    rw [show 2 * Real.pi * ((1 : ℕ) : ℝ) / (((5 - 1 : ℕ) : ℕ) : ℝ) = Real.pi / 2 by
      push_cast; ring]
    rw [Real.cos_pi_div_two]
    norm_num
  have hw2 : hannW 5 2 = 1 := by
    unfold hannW
    rw [show 2 * Real.pi * ((2 : ℕ) : ℝ) / (((5 - 1 : ℕ) : ℕ) : ℝ) = Real.pi by
      push_cast; ring]
    rw [Real.cos_pi]
    norm_num
  have hw3 : hannW 5 3 = 1 / 2 := by
    unfold hannW
    rw [show 2 * Real.pi * ((3 : ℕ) : ℝ) / (((5 - 1 : ℕ) : ℕ) : ℝ) = Real.pi + Real.pi / 2 by
      push_cast; ring]
    rw [Real.cos_add]
    norm_num [Real.cos_pi, Real.sin_pi, Real.cos_pi_div_two, Real.sin_pi_div_two]
  have hw4 : hannW 5 4 = 0 := by
    unfold hannW
    rw [show 2 * Real.pi * ((4 : ℕ) : ℝ) / (((5 - 1 : ℕ) : ℕ) : ℝ) = 2 * Real.pi by
      push_cast; ring]
    rw [Real.cos_two_pi]
    norm_num
  funext m
  rcases m with _ | _ | _ | _ | _ | k
  · rw [show segRe [s0, s1, s2, s3, s4] 0 5 0 = s0 * hannW 5 0 from by
      unfold segRe; rw [if_pos (by norm_num)]; rfl]
    rw [hw0]
    norm_num [vecFn_apply]
  · rw [show segRe [s0, s1, s2, s3, s4] 0 5 1 = s1 * hannW 5 1 from by
      unfold segRe; rw [if_pos (by norm_num)]; rfl]
    rw [hw1]
    norm_num [vecFn_apply]
  · rw [show segRe [s0, s1, s2, s3, s4] 0 5 2 = s2 * hannW 5 2 from by
      unfold segRe; rw [if_pos (by norm_num)]; rfl]
    rw [hw2]
    norm_num [vecFn_apply]
  · rw [show segRe [s0, s1, s2, s3, s4] 0 5 3 = s3 * hannW 5 3 from by
      unfold segRe; rw [if_pos (by norm_num)]; rfl]
    rw [hw3]
    norm_num [vecFn_apply]
  · rw [show segRe [s0, s1, s2, s3, s4] 0 5 4 = s4 * hannW 5 4 from by
      unfold segRe; rw [if_pos (by norm_num)]; rfl]
    rw [hw4]
    norm_num [vecFn_apply]
  · rw [show segRe [s0, s1, s2, s3, s4] 0 5 (k + 5) = 0 from by
      unfold segRe; rw [if_neg (by omega)]]
    rcases k with _ | _ | _ | k
    repeat rfl

/-- The spectrum of the counterexample signal `[0, 4, 6, -2, 0]` (windowed to
`[0, 2, 6, -1, 0, 0, 0, 0]`). -/
theorem cex_spectrum :
    fftSpectrum [0, 4, 6, -2, 0] =
      (vecFn [7, Real.sqrt 2 / 2 * 3, -6, -(Real.sqrt 2 / 2 * 3), 5,
        -(Real.sqrt 2 / 2 * 3), -6, Real.sqrt 2 / 2 * 3],
       vecFn [0, -6 - Real.sqrt 2 / 2, -3, 6 - Real.sqrt 2 / 2, 0,
        -6 + Real.sqrt 2 / 2, 3, 6 + Real.sqrt 2 / 2]) := by
  unfold fftSpectrum
  rw [show (([0, 4, 6, -2, 0] : List ℝ)).length = 5 from rfl]
  rw [segRe_five, show nextPow2 5 = 8 from by decide]
  rw [show vecFn [0, (4 : ℝ) * (1 / 2), 6, -2 * (1 / 2), 0, 0, 0, 0]
    = vecFn [0, 2, 6, -1, 0, 0, 0, 0] from by apply congrArg; norm_num]
  rw [fft8_eval]
  refine Prod.ext ?_ ?_ <;>
  · apply congrArg vecFn
    norm_num

end CounterexampleEvaluation

section CounterexampleTheorems

/-- Squared magnitude of the counterexample spectrum at bin 1 (unscanned
left neighbour of the peak): `41 + 6√2 ≈ 49.49`. -/
theorem cex_magSq_one : fftMagSq [0, 4, 6, -2, 0] 1 = 41 + 6 * Real.sqrt 2 := by
  unfold fftMagSq
  rw [cex_spectrum]
  have h2 : Real.sqrt 2 * Real.sqrt 2 = 2 := Real.mul_self_sqrt (by norm_num)
  norm_num [vecFn_apply, List.getD, show ((1 : ℤ).toNat) = 1 from rfl,
    show ((3 : ℤ).toNat) = 3 from rfl]
  nlinarith [h2]

/-- Squared magnitude at bin 2 (the found peak): `45`. -/
theorem cex_magSq_two : fftMagSq [0, 4, 6, -2, 0] 2 = 45 := by
  unfold fftMagSq
  rw [cex_spectrum]
  norm_num [vecFn_apply, List.getD, show ((2 : ℤ).toNat) = 2 from rfl,
    show ((4 : ℤ).toNat) = 4 from rfl]

/-- Squared magnitude at bin 3: `41 - 6√2 ≈ 32.51`. -/
theorem cex_magSq_three : fftMagSq [0, 4, 6, -2, 0] 3 = 41 - 6 * Real.sqrt 2 := by
  unfold fftMagSq
  rw [cex_spectrum]
  have h2 : Real.sqrt 2 * Real.sqrt 2 = 2 := Real.mul_self_sqrt (by norm_num)
  norm_num [vecFn_apply, List.getD, show ((1 : ℤ).toNat) = 1 from rfl,
    show ((3 : ℤ).toNat) = 3 from rfl]
  nlinarith [h2]

/-- Squared magnitude at bin 4: `25`. -/
theorem cex_magSq_four : fftMagSq [0, 4, 6, -2, 0] 4 = 25 := by
  unfold fftMagSq
  rw [cex_spectrum]
  norm_num [vecFn_apply, List.getD, show ((2 : ℤ).toNat) = 2 from rfl,
    show ((4 : ℤ).toNat) = 4 from rfl]

/-- At `fps = 2` the scanned band of `fftHeartRate` on the counterexample is
`[2, 4]` (`minBin = ⌊2.68⌋ = 2`, `min(maxBin, n/2) = min(14, 4) = 4`). -/
theorem cex_minBin : fftMinBin [0, 4, 6, -2, 0] 2 = 2 := by
  unfold fftMinBin
  rw [show (([0, 4, 6, -2, 0] : List ℝ)).length = 5 from rfl,
    show nextPow2 5 = 8 from by decide]
  rw [show (0.67 * ((8 : ℕ) : ℝ) / 2) = 2.68 by push_cast; norm_num]
  rw [Int.floor_eq_iff]
  norm_num

/-- The scan's upper bound is bin 4. -/
theorem cex_hiBin :
    min (fftMaxBin [0, 4, 6, -2, 0] 2) ((nextPow2 ([0, 4, 6, -2, 0] : List ℝ).length : ℤ) / 2)
      = 4 := by
  have hmax : fftMaxBin [0, 4, 6, -2, 0] 2 = 14 := by
    unfold fftMaxBin
    rw [show (([0, 4, 6, -2, 0] : List ℝ)).length = 5 from rfl,
      show nextPow2 5 = 8 from by decide]
    rw [show (3.33 * ((8 : ℕ) : ℝ) / 2) = 13.32 by push_cast; norm_num]
    rw [Int.ceil_eq_iff]
    norm_num
  rw [hmax, show (([0, 4, 6, -2, 0] : List ℝ)).length = 5 from rfl,
    show nextPow2 5 = 8 from by decide]
  decide

/-- The scan on the counterexample finds its peak at bin 2: bin 2 holds `45`,
bins 3 and 4 hold `41 - 6√2` and `25`, both smaller. -/
theorem cex_peakBin : fftPeakBin [0, 4, 6, -2, 0] 2 = 2 := by
  unfold fftPeakBin
  rw [cex_minBin, cex_hiBin]
  unfold peakScan
  rw [show intRange 2 4 = [2, 3, 4] from by decide]
  simp only [List.foldl_cons, List.foldl_nil, cex_magSq_two, cex_magSq_three,
    cex_magSq_four]
  rw [if_pos (by norm_num : (45 : ℝ) > 0)]
  rw [if_neg (by nlinarith [Real.sqrt_nonneg 2] : ¬((41 - 6 * Real.sqrt 2 : ℝ) > 45))]
  rw [if_neg (by norm_num : ¬((25 : ℝ) > 45))]

/-- The unguarded parabolic interpolation of `fftHeartRate` on the
counterexample: `δ = 12√2 / (2·(-8)) = -(3√2)/4 ≈ -1.06`, strictly outside
`(-1, 1)`. -/
theorem cex_delta : fftDelta [0, 4, 6, -2, 0] 2 = -(3 * Real.sqrt 2) / 4 := by
  unfold fftDelta
  dsimp only
  rw [cex_peakBin]
  rw [if_pos (by
    rw [show (([0, 4, 6, -2, 0] : List ℝ)).length = 5 from rfl,
      show nextPow2 5 = 8 from by decide]
    decide)]
  rw [show (2 : ℤ) - 1 = 1 from by decide, show (2 : ℤ) + 1 = 3 from by decide]
  rw [cex_magSq_one, cex_magSq_two, cex_magSq_three]
  have h8 : (41 + 6 * Real.sqrt 2 - 2 * 45 + (41 - 6 * Real.sqrt 2)) = -8 := by ring
  rw [h8]
  ring

/-- C2 counterexample.  On the signal `[0, 4, 6, -2, 0]` at `fps = 2`, the
single-window estimator finds its peak at the scan-edge bin 2, whose
unscanned left neighbour (bin 1) dominates it; the parabolic refinement then
yields `δ = -(3√2)/4 < -1`, so the refined bin `peakBin + δ` falls strictly
below `peakBin - 1` — outside the claimed interval — and that escaped value
is what `fftHeartRate` reports. -/
theorem fft_parabolic_escapes_neighbor_interval :
    fftPeakBin [0, 4, 6, -2, 0] 2 = 2 ∧
    fftDelta [0, 4, 6, -2, 0] 2 = -(3 * Real.sqrt 2) / 4 ∧
    (fftPeakBin [0, 4, 6, -2, 0] 2 : ℝ) + fftDelta [0, 4, 6, -2, 0] 2
      < (fftPeakBin [0, 4, 6, -2, 0] 2 : ℝ) - 1 ∧
    fftHeartRate [0, 4, 6, -2, 0] 2 = ((2 : ℝ) + -(3 * Real.sqrt 2) / 4) * 2 / 8 * 60 := by
  have hsq : Real.sqrt 2 * Real.sqrt 2 = 2 := Real.mul_self_sqrt (by norm_num)
  refine ⟨cex_peakBin, cex_delta, ?_, ?_⟩
  · rw [cex_peakBin, cex_delta]
    push_cast
    nlinarith [hsq, Real.sqrt_nonneg 2]
  · unfold fftHeartRate
    rw [cex_peakBin, cex_delta, show (([0, 4, 6, -2, 0] : List ℝ)).length = 5 from rfl,
      show nextPow2 5 = 8 from by decide]
    push_cast
    ring

end CounterexampleTheorems

section WitnessEvaluation

/-- The spectrum of the witness signal `[0, 2, 0, -2, 0]` (windowed to
`[0, 1, 0, -1, 0, 0, 0, 0]`). -/
theorem wit_spectrum :
    fftSpectrum [0, 2, 0, -2, 0] =
      (vecFn [0, Real.sqrt 2, 0, -Real.sqrt 2, 0, -Real.sqrt 2, 0, Real.sqrt 2],
       vecFn [0, 0, -2, 0, 0, 0, 2, 0]) := by
  unfold fftSpectrum
  rw [show (([0, 2, 0, -2, 0] : List ℝ)).length = 5 from rfl]
  rw [segRe_five, show nextPow2 5 = 8 from by decide]
  rw [show vecFn [0, (2 : ℝ) * (1 / 2), 0, -2 * (1 / 2), 0, 0, 0, 0]
    = vecFn [0, 1, 0, -1, 0, 0, 0, 0] from by apply congrArg; norm_num]
  rw [fft8_eval]
  refine Prod.ext ?_ ?_ <;>
  · apply congrArg vecFn
    norm_num
    try ring_nf

/-- Witness magnitudes: bin 1 holds `2`. -/
theorem wit_magSq_one : fftMagSq [0, 2, 0, -2, 0] 1 = 2 := by
  unfold fftMagSq
  rw [wit_spectrum]
  have h2 : Real.sqrt 2 * Real.sqrt 2 = 2 := Real.mul_self_sqrt (by norm_num)
  norm_num [vecFn_apply, List.getD, show ((1 : ℤ).toNat) = 1 from rfl]
  try nlinarith [h2]

/-- Witness magnitudes: bin 2 (the peak) holds `4`. -/
theorem wit_magSq_two : fftMagSq [0, 2, 0, -2, 0] 2 = 4 := by
  unfold fftMagSq
  rw [wit_spectrum]
  norm_num [vecFn_apply, List.getD, show ((2 : ℤ).toNat) = 2 from rfl]

/-- Witness magnitudes: bin 3 holds `2`. -/
theorem wit_magSq_three : fftMagSq [0, 2, 0, -2, 0] 3 = 2 := by
  unfold fftMagSq
  rw [wit_spectrum]
  have h2 : Real.sqrt 2 * Real.sqrt 2 = 2 := Real.mul_self_sqrt (by norm_num)
  norm_num [vecFn_apply, List.getD, show ((3 : ℤ).toNat) = 3 from rfl]
  try nlinarith [h2]

/-- Witness magnitudes: bin 4 holds `0`. -/
theorem wit_magSq_four : fftMagSq [0, 2, 0, -2, 0] 4 = 0 := by
  unfold fftMagSq
  rw [wit_spectrum]
  norm_num [vecFn_apply, List.getD, show ((4 : ℤ).toNat) = 4 from rfl]

/-- The witness scan also runs over `[2, 4]` and finds its peak at bin 2. -/
theorem wit_peakBin : fftPeakBin [0, 2, 0, -2, 0] 2 = 2 := by
  have hmin : fftMinBin [0, 2, 0, -2, 0] 2 = 2 := by
    unfold fftMinBin
    rw [show (([0, 2, 0, -2, 0] : List ℝ)).length = 5 from rfl,
      show nextPow2 5 = 8 from by decide]
    rw [show (0.67 * ((8 : ℕ) : ℝ) / 2) = 2.68 by push_cast; norm_num]
    rw [Int.floor_eq_iff]
    norm_num
  have hhi : min (fftMaxBin [0, 2, 0, -2, 0] 2)
      ((nextPow2 ([0, 2, 0, -2, 0] : List ℝ).length : ℤ) / 2) = 4 := by
    have hmax : fftMaxBin [0, 2, 0, -2, 0] 2 = 14 := by
      unfold fftMaxBin
      rw [show (([0, 2, 0, -2, 0] : List ℝ)).length = 5 from rfl,
        show nextPow2 5 = 8 from by decide]
      rw [show (3.33 * ((8 : ℕ) : ℝ) / 2) = 13.32 by push_cast; norm_num]
      rw [Int.ceil_eq_iff]
      norm_num
    rw [hmax, show (([0, 2, 0, -2, 0] : List ℝ)).length = 5 from rfl,
      show nextPow2 5 = 8 from by decide]
    decide
  unfold fftPeakBin
  rw [hmin, hhi]
  unfold peakScan
  rw [show intRange 2 4 = [2, 3, 4] from by decide]
  simp only [List.foldl_cons, List.foldl_nil, wit_magSq_two, wit_magSq_three,
    wit_magSq_four]
  rw [if_pos (by norm_num : (4 : ℝ) > 0)]
  rw [if_neg (by norm_num : ¬((2 : ℝ) > 4))]
  rw [if_neg (by norm_num : ¬((0 : ℝ) > 4))]

/-- C2 witness: on `[0, 2, 0, -2, 0]` at `fps = 2` the peak (bin 2, magnitude
4) dominates both its neighbours (magnitude 2 each), so the amended theorem
bounds both estimators' refined bins, the fft half with its two
neighbour-magnitude hypotheses discharged concretely. -/
theorem parabolic_refinement_bounded_witness :
    (fftMagSq [0, 2, 0, -2, 0] (fftPeakBin [0, 2, 0, -2, 0] 2 - 1)
      ≤ fftMagSq [0, 2, 0, -2, 0] (fftPeakBin [0, 2, 0, -2, 0] 2)) ∧
    (fftMagSq [0, 2, 0, -2, 0] (fftPeakBin [0, 2, 0, -2, 0] 2 + 1)
      ≤ fftMagSq [0, 2, 0, -2, 0] (fftPeakBin [0, 2, 0, -2, 0] 2)) ∧
    (((welchPeakBin [0, 2, 0, -2, 0] 2 : ℝ) - 1
        < (welchPeakBin [0, 2, 0, -2, 0] 2 : ℝ) + welchDelta [0, 2, 0, -2, 0] 2 ∧
      (welchPeakBin [0, 2, 0, -2, 0] 2 : ℝ) + welchDelta [0, 2, 0, -2, 0] 2
        < (welchPeakBin [0, 2, 0, -2, 0] 2 : ℝ) + 1) ∧
     ((fftPeakBin [0, 2, 0, -2, 0] 2 : ℝ) - 1
        < (fftPeakBin [0, 2, 0, -2, 0] 2 : ℝ) + fftDelta [0, 2, 0, -2, 0] 2 ∧
      (fftPeakBin [0, 2, 0, -2, 0] 2 : ℝ) + fftDelta [0, 2, 0, -2, 0] 2
        < (fftPeakBin [0, 2, 0, -2, 0] 2 : ℝ) + 1)) := by
  have h1 : fftMagSq [0, 2, 0, -2, 0] (fftPeakBin [0, 2, 0, -2, 0] 2 - 1)
      ≤ fftMagSq [0, 2, 0, -2, 0] (fftPeakBin [0, 2, 0, -2, 0] 2) := by
    rw [wit_peakBin, show (2 : ℤ) - 1 = 1 from by decide, wit_magSq_one, wit_magSq_two]
    norm_num
  have h2 : fftMagSq [0, 2, 0, -2, 0] (fftPeakBin [0, 2, 0, -2, 0] 2 + 1)
      ≤ fftMagSq [0, 2, 0, -2, 0] (fftPeakBin [0, 2, 0, -2, 0] 2) := by
    rw [wit_peakBin, show (2 : ℤ) + 1 = 3 from by decide, wit_magSq_three, wit_magSq_two]
    norm_num
  exact ⟨h1, h2, (parabolic_refinement_bounded [0, 2, 0, -2, 0] 2).1,
    (parabolic_refinement_bounded [0, 2, 0, -2, 0] 2).2 h1 h2⟩

end WitnessEvaluation
